import Mathlib

/-!
Verification of the core of the `stake` real-time debate platform: the
continuous speech-capture pipeline (`src/hooks/useSpeechRecognition.ts`),
the caption stream reader (`src/hooks/useCaptions.ts`), the content
aggregator and summary synthesizer (`src/lib/gemini.ts`,
`src/hooks/useDebateSummary.ts`).

The recognition hook is embedded as an explicit transition system over the
state held by the hook (React state and refs), driven by the events of the
host recognizer (`onstart`, `onend`, `onerror`, `onresult`), the exposed
calls (`startListening`, `stopListening`) and timer firings.  Timers
created with `setTimeout` are modelled as a multiset of pending timers with
fresh identifiers; `autoRestartTimeoutRef` is the `trackedTimer` field.
`scheduledDelays` is a ghost log of the delays of all restart timers
created so far, used to reason about the restart back-off.  The nested
5000 ms retry timer created inside the restart callback (lines 70-78)
performs no state writes and is not modelled.  Machine integers do not
occur; timestamps are parsed epoch milliseconds, modelled as `Int`, and
confidences are modelled as `Rat`.
-/

namespace Stake

/-- The two debate sides, `vote_side` in the database schema. -/
inductive Side
  | side_a
  | side_b
deriving DecidableEq

/-- Configuration of one recognition hook instance: the props of
`useSpeechRecognition` (`src/hooks/useSpeechRecognition.ts`, lines 4-10)
together with recognizer support (`isSupported`). -/
structure RecConfig where
  roomId : String
  userId : String
  isAnchor : Bool
  autoStart : Bool
  participantSide : Option Side
  isSupported : Bool
deriving DecidableEq

/-- One entry of the recognizer result list: `results[i][0].transcript`,
`results[i].isFinal` and `results[i][0].confidence` (possibly absent). -/
structure SpeechResult where
  transcript : String
  isFinal : Bool
  confidence : Option Rat
deriving DecidableEq

/-- A restart timer created by `setTimeout` in `recognition.onend`:
a fresh identifier and the delay in milliseconds. -/
structure RestartTimer where
  timerId : Nat
  delayMs : Nat
deriving DecidableEq

/-- State of one recognition hook instance: the React state
(`isListening`, `transcript`, `error`, `autoRestartCount`), the ref
`finalTranscriptRef`, the pending `setTimeout` timers with the tracked
reference `autoRestartTimeoutRef`, a fresh-identifier counter, and a ghost
log of the delays of every restart timer scheduled so far. -/
structure RecState where
  isListening : Bool
  transcript : String
  errorMsg : String
  autoRestartCount : Nat
  finalTranscriptRef : String
  pendingTimers : List RestartTimer
  trackedTimer : Option Nat
  nextTimerId : Nat
  scheduledDelays : List Nat
deriving DecidableEq

/-- Initial hook state: nothing listening, empty buffers, no timers. -/
def initialRecState : RecState :=
  { isListening := false
    transcript := ""
    errorMsg := ""
    autoRestartCount := 0
    finalTranscriptRef := ""
    pendingTimers := []
    trackedTimer := none
    nextTimerId := 0
    scheduledDelays := [] }

/-- A caption row as inserted by the recognition pipeline
(`supabase.from(captions).insert(...)`, lines 125-132). -/
structure CaptionInsert where
  room_id : String
  user_id : String
  participant_side : Side
  content : String
  confidence : Rat
  is_final : Bool
deriving DecidableEq

/-- Observable actions of the hook: a caption row written to durable
storage, a call of `recognition.start()`, a call of `recognition.stop()`. -/
inductive RecAction
  | insertCaption (c : CaptionInsert)
  | callStart
  | callStop
deriving DecidableEq

/-- Events driving the hook: the four recognizer callbacks, the two exposed
calls, and the firing of a pending restart timer.  `userStart` carries
whether the underlying `recognition.start()` call succeeds (it throws when
a session is already active). -/
inductive RecEvent
  | started
  | ended
  | errored (kind : String)
  | result (results : List SpeechResult) (resultIndex : Nat)
  | userStart (startOk : Bool)
  | userStop
  | timerFire (timerId : Nat)
deriving DecidableEq

/-- Handler `recognition.onstart` (lines 46-51): listening, clear the
error, reset the auto-restart count. -/
def onstart (st : RecState) : RecState :=
  { st with isListening := true, errorMsg := "", autoRestartCount := 0 }

/-- Handler `recognition.onend` (lines 53-83): stop listening; when the
anchor auto-restart conditions hold and the count is below the cap of 10,
increment the count and schedule a restart timer with delay
`1000 + autoRestartCount * 500` (the delay reads the count before the
increment).  The new timer is appended to the pending timers and becomes
the tracked one; the code performs no `clearTimeout` here, so a previously
pending timer stays pending. -/
def onend (cfg : RecConfig) (st : RecState) : RecState :=
  let st1 := { st with isListening := false }
  if cfg.isAnchor && cfg.autoStart && cfg.participantSide.isSome
      && decide (st1.autoRestartCount < 10) then
    let delay := 1000 + st1.autoRestartCount * 500
    { st1 with
      autoRestartCount := st1.autoRestartCount + 1
      pendingTimers := st1.pendingTimers ++ [⟨st1.nextTimerId, delay⟩]
      trackedTimer := some st1.nextTimerId
      nextTimerId := st1.nextTimerId + 1
      scheduledDelays := st1.scheduledDelays ++ [delay] }
  else st1

/-- Handler `recognition.onerror` (lines 85-100): stop listening and set
the error message by error kind; a `no-speech` error only logs.  The
handler touches no timer. -/
def onerror (st : RecState) (kind : String) : RecState :=
  let st1 := { st with isListening := false }
  if kind == "not-allowed" then
    { st1 with errorMsg :=
        "Microphone access denied. Please allow microphone access for automatic captions." }
  else if kind == "no-speech" then st1
  else if kind == "network" then
    { st1 with errorMsg := "Network error. Captions will retry automatically." }
  else
    { st1 with errorMsg := "Speech recognition error: " ++ kind }

/-- One pass of the accumulator loop of `onresult` (lines 106-113) for the
`finalTranscript` accumulator: each iteration appends the transcript when
the result is final. -/
def finalConcat : List SpeechResult → String
  | [] => ""
  | r :: rs => (if r.isFinal then r.transcript else "") ++ finalConcat rs

/-- One pass of the accumulator loop of `onresult` for the
`interimTranscript` accumulator: each iteration appends the transcript
when the result is not final. -/
def interimConcat : List SpeechResult → String
  | [] => ""
  | r :: rs => (if r.isFinal then "" else r.transcript) ++ interimConcat rs

/-- The `finalTranscript` accumulated by the `onresult` loop, which runs
from `event.resultIndex` to the end of the result list. -/
def finalTextOf (results : List SpeechResult) (resultIndex : Nat) : String :=
  finalConcat (results.drop resultIndex)

/-- The `interimTranscript` accumulated by the `onresult` loop. -/
def interimTextOf (results : List SpeechResult) (resultIndex : Nat) : String :=
  interimConcat (results.drop resultIndex)

/-- The persisted confidence
`event.results[event.resultIndex]?.[0]?.confidence || 0.9` (line 130):
the JavaScript `||` substitutes the default 0.9 when the result is absent,
the confidence is absent, or the confidence is exactly 0 (falsy). -/
def defaultedConfidence (results : List SpeechResult) (resultIndex : Nat) : Rat :=
  match results.get? resultIndex with
  | none => 9/10
  | some r =>
    match r.confidence with
    | none => 9/10
    | some c => if c == 0 then 9/10 else c

/-- Whitespace stripping on the character list underlying a string. -/
def trimChars (l : List Char) : List Char :=
  ((l.dropWhile Char.isWhitespace).reverse.dropWhile Char.isWhitespace).reverse

/-- The JavaScript `String.prototype.trim`: strip leading and trailing
whitespace.  Defined by structural recursion over the character list so
that concrete instances evaluate. -/
def jsTrim (s : String) : String := String.mk (trimChars s.data)

/-- The persistence condition of `recognition.onresult` (line 119):
`finalTranscript.trim() && participantSide && isAnchor`, with the
JavaScript truthiness of a string being its non-emptiness. -/
def persistsCaption (cfg : RecConfig) (results : List SpeechResult) (resultIndex : Nat) : Bool :=
  !(jsTrim (finalTextOf results resultIndex) == "") && cfg.participantSide.isSome && cfg.isAnchor

/-- State effect of handler `recognition.onresult` (lines 102-143): set
the display transcript to the old `finalTranscriptRef` plus the new final
and interim text; on the persistence path additionally extend
`finalTranscriptRef` by the new final text. -/
def onresultState (cfg : RecConfig) (st : RecState) (results : List SpeechResult)
    (resultIndex : Nat) : RecState :=
  let fin := finalTextOf results resultIndex
  let intr := interimTextOf results resultIndex
  let st1 := { st with transcript := st.finalTranscriptRef ++ fin ++ intr }
  if persistsCaption cfg results resultIndex then
    { st1 with finalTranscriptRef := st.finalTranscriptRef ++ fin }
  else st1

/-- Write effect of handler `recognition.onresult`: on the persistence
path, one caption insert (lines 125-132) with the trimmed final text, the
side fixed by the hook configuration, the defaulted confidence, and
`is_final := true`; otherwise nothing. -/
def onresultActions (cfg : RecConfig) (results : List SpeechResult) (resultIndex : Nat) :
    List RecAction :=
  match cfg.participantSide with
  | some side =>
    if persistsCaption cfg results resultIndex then
      [RecAction.insertCaption
        { room_id := cfg.roomId
          user_id := cfg.userId
          participant_side := side
          content := jsTrim (finalTextOf results resultIndex)
          confidence := defaultedConfidence results resultIndex
          is_final := true }]
    else []
  | none => []

/-- Handler `recognition.onresult`, the pairing of its state effect and
its write effect. -/
def onresult (cfg : RecConfig) (st : RecState) (results : List SpeechResult)
    (resultIndex : Nat) : RecState × List RecAction :=
  (onresultState cfg st results resultIndex, onresultActions cfg results resultIndex)

/-- Exposed call `startListening` (lines 170-189): rejected without
support or a resolved side (setting the error in the latter case);
otherwise clear the buffers and the error, reset the auto-restart count to
zero, and call `recognition.start()`, which may throw.  The resets happen
before the call, hence regardless of its success.  No pending timer is
cancelled here. -/
def startListening (cfg : RecConfig) (st : RecState) (startOk : Bool) :
    RecState × List RecAction :=
  if !cfg.isSupported || cfg.participantSide.isNone then
    if cfg.participantSide.isNone then
      ({ st with errorMsg := "Cannot start recording: participant side not determined" }, [])
    else (st, [])
  else
    let st1 := { st with finalTranscriptRef := "", transcript := "", errorMsg := ""
                         autoRestartCount := 0 }
    if startOk then (st1, [RecAction.callStart])
    else ({ st1 with errorMsg := "Failed to start speech recognition" }, [RecAction.callStart])

/-- Exposed call `stopListening` (lines 191-199): `clearTimeout` on the
tracked timer reference (which stays set), then `recognition.stop()` when
listening. -/
def stopListening (st : RecState) : RecState × List RecAction :=
  let st1 :=
    match st.trackedTimer with
    | some i => { st with pendingTimers := st.pendingTimers.filter (fun t => t.timerId != i) }
    | none => st
  if st1.isListening then (st1, [RecAction.callStop]) else (st1, [])

/-- Firing of a pending restart timer (callback at lines 63-81): the timer
leaves the pending set; when not listening, `recognition.start()` is
called. -/
def timerFire (st : RecState) (i : Nat) : RecState × List RecAction :=
  if st.pendingTimers.any (fun t => t.timerId == i) then
    let st1 := { st with pendingTimers := st.pendingTimers.filter (fun t => t.timerId != i) }
    if st1.isListening then (st1, []) else (st1, [RecAction.callStart])
  else (st, [])

/-- One transition of the recognition hook. -/
def step (cfg : RecConfig) (st : RecState) : RecEvent → RecState × List RecAction
  | RecEvent.started => (onstart st, [])
  | RecEvent.ended => (onend cfg st, [])
  | RecEvent.errored kind => (onerror st kind, [])
  | RecEvent.result results resultIndex => onresult cfg st results resultIndex
  | RecEvent.userStart startOk => startListening cfg st startOk
  | RecEvent.userStop => stopListening st
  | RecEvent.timerFire i => timerFire st i

/-- Run of the hook over an event history, collecting the emitted
actions in order. -/
def run (cfg : RecConfig) : RecState → List RecEvent → RecState × List RecAction
  | st, [] => (st, [])
  | st, e :: es =>
    ((run cfg (step cfg st e).1 es).1, (step cfg st e).2 ++ (run cfg (step cfg st e).1 es).2)

/-- A concrete anchor configuration: the anchor holds side A, auto-start
is on (the default), recognition is supported. -/
def anchorCfg : RecConfig :=
  { roomId := "room1"
    userId := "user1"
    isAnchor := true
    autoStart := true
    participantSide := some Side.side_a
    isSupported := true }

/-!
Content aggregator and summary synthesizer, `src/lib/gemini.ts`.
Timestamps arrive as strings and are compared through
`new Date(t).getTime()`; the embedding carries the parsed epoch
milliseconds directly as `Int`.  JavaScript `Array.prototype.sort` is
stable (required since ES2019), so the sort at line 31 is modelled by the
stable `List.insertionSort`.
-/

/-- A chat message as passed to `generateDebateSummary`
(`src/lib/gemini.ts`, line 5). -/
structure GMessage where
  content : String
  side : Option Side
  timestamp : Int
  user_id : Option String
deriving DecidableEq

/-- A caption as passed to `generateDebateSummary` (line 7). -/
structure GCaption where
  content : String
  participant_side : Option Side
  timestamp : Int
  confidence : Option Rat
deriving DecidableEq

/-- Source tag of a merged entry (`type` at lines 21 and 28). -/
inductive SourceKind
  | message
  | caption
deriving DecidableEq

/-- One element of `allContent` (lines 16-31): the normalized unit merged
from either source. -/
structure ContentItem where
  content : String
  side : Option Side
  timestamp : Int
  kind : SourceKind
  confidence : Option Rat
  user_id : Option String
deriving DecidableEq

/-- Comparison used by the merge: ascending parsed timestamp. -/
def tsLe (a b : ContentItem) : Prop := a.timestamp ≤ b.timestamp

instance : DecidableRel tsLe := fun a b => inferInstanceAs (Decidable (a.timestamp ≤ b.timestamp))

instance : IsTotal ContentItem tsLe := ⟨fun a b => Int.le_total a.timestamp b.timestamp⟩

instance : IsTrans ContentItem tsLe := ⟨fun _ _ _ h1 h2 => le_trans h1 h2⟩

/-- Mapping of a message into the merge (lines 17-23). -/
def msgItem (m : GMessage) : ContentItem :=
  { content := m.content
    side := m.side
    timestamp := m.timestamp
    kind := SourceKind.message
    confidence := none
    user_id := m.user_id }

/-- Mapping of a caption into the merge (lines 24-30). -/
def capItem (c : GCaption) : ContentItem :=
  { content := c.content
    side := c.participant_side
    timestamp := c.timestamp
    kind := SourceKind.caption
    confidence := c.confidence
    user_id := none }

/-- The merged chronological sequence `allContent` (lines 16-31): messages
first, then captions, stably sorted by ascending timestamp. -/
def allContent (msgs : List GMessage) (caps : List GCaption) : List ContentItem :=
  List.insertionSort tsLe (msgs.map msgItem ++ caps.map capItem)

/-- The per-side subsequences `sideAContent` and `sideBContent`
(lines 33-34). -/
def sideContent (msgs : List GMessage) (caps : List GCaption) (side : Side) : List ContentItem :=
  (allContent msgs caps).filter (fun e => e.side == some side)

/-- Vote tallies passed to `generateDebateSummary` (line 6). -/
structure Votes where
  side_a : Nat
  side_b : Nat
deriving DecidableEq

/-- Rendering of `x.toFixed(1)` for the nonnegative percentages arising
here, modelled as exact rational rounding to one decimal, half up; the
binary double rounding of JavaScript deviates from the exact rational only
in digits that none of the claims mention. -/
def toFixed1 (q : Rat) : String :=
  let n : Int := ⌊q * 10 + 1/2⌋
  toString (n / 10) ++ "." ++ toString (n % 10)

/-- Total votes (line 35). -/
def totalVotes (votes : Votes) : Nat := votes.side_a + votes.side_b

/-- Percentage string for side A (line 36): `toFixed(1)` of the exact
share when any votes exist, the string `0` otherwise. -/
def sideAPercentage (votes : Votes) : String :=
  if 0 < totalVotes votes then
    toFixed1 (((votes.side_a : Rat) / (totalVotes votes : Rat)) * 100)
  else "0"

/-- Percentage string for side B (line 37). -/
def sideBPercentage (votes : Votes) : String :=
  if 0 < totalVotes votes then
    toFixed1 (((votes.side_b : Rat) / (totalVotes votes : Rat)) * 100)
  else "0"

/-- Bullet list of the first five contributions of one side
(lines 182 and 185): `slice(0, 5)`, one `- ` bullet per entry joined by
newlines, with the JavaScript `|| fallback` substituting the placeholder
exactly when the join is the empty string, that is when the side has no
entries. -/
def bulletList (items : List ContentItem) : String :=
  let s := String.intercalate "\n" ((items.take 5).map (fun item => "- " ++ item.content))
  if s == "" then "- No arguments recorded" else s

/-- The deterministic local fallback template (lines 171-200), a pure
function of the aggregated input data and the caught error message. -/
def fallbackSummary (topic : String) (msgs : List GMessage) (votes : Votes)
    (caps : List GCaption) (sideALabel sideBLabel : String) (errMsg : String) : String :=
  "# Debate Summary: " ++ topic
  ++ "\n\n## Executive Summary\nThis debate on \"" ++ topic ++ "\" generated "
  ++ toString msgs.length ++ " chat messages and " ++ toString caps.length
  ++ " speech contributions, with " ++ toString (totalVotes votes)
  ++ " participants casting votes. The discussion concluded with " ++ sideALabel
  ++ " receiving " ++ toString votes.side_a ++ " votes (" ++ sideAPercentage votes
  ++ "%) and " ++ sideBLabel ++ " receiving " ++ toString votes.side_b ++ " votes ("
  ++ sideBPercentage votes ++ "%)."
  ++ "\n\n## Debate Overview\nThe debate featured structured discussion between "
  ++ sideALabel ++ " and " ++ sideBLabel
  ++ " positions, with participants contributing through both text chat and live speech."
  ++ " The format allowed for real-time audience engagement and voting."
  ++ "\n\n## Key Arguments\n\n### " ++ sideALabel ++ " Position ("
  ++ toString (sideContent msgs caps Side.side_a).length ++ " contributions):\n"
  ++ bulletList (sideContent msgs caps Side.side_a)
  ++ "\n\n### " ++ sideBLabel ++ " Position ("
  ++ toString (sideContent msgs caps Side.side_b).length ++ " contributions):\n"
  ++ bulletList (sideContent msgs caps Side.side_b)
  ++ "\n\n## Voting Results\n- **" ++ sideALabel ++ ":** " ++ toString votes.side_a
  ++ " votes (" ++ sideAPercentage votes ++ "%)\n- **" ++ sideBLabel ++ ":** "
  ++ toString votes.side_b ++ " votes (" ++ sideBPercentage votes ++ "%)"
  ++ "\n\n## Discussion Timeline\nThe debate included:\n- " ++ toString msgs.length
  ++ " text messages from participants\n- " ++ toString caps.length
  ++ " speech-to-text captions from anchors\n- Real-time voting by "
  ++ toString (totalVotes votes) ++ " participants"
  ++ "\n\n## Conclusion\nThis debate provided valuable insights into different perspectives on "
  ++ topic ++ ". The voting results reflect the audience\x27s response to the arguments"
  ++ " presented by both sides."
  ++ "\n\n*Note: This is a basic summary. AI-powered analysis is temporarily unavailable due to: "
  ++ errMsg ++ "*"

/-- Outcome of the interaction with the generative service inside the
`try` block (lines 126-166): the `fetch` rejects, the response is not ok,
or a response body whose `candidates?.[0]?.content?.parts?.[0]?.text` is
absent or some string. -/
inductive GeminiOutcome
  | fetchError (msg : String)
  | httpError (status : Nat) (statusText : String) (apiMsg : String)
  | ok (generatedText : Option String)
deriving DecidableEq

/-- Whether the outcome takes the failure path: any rejection, any non-ok
response, or generated text that is absent or empty (the JavaScript
`!generatedText` check at line 162 treats the empty string as falsy). -/
def isFailure : GeminiOutcome → Bool
  | GeminiOutcome.ok (some t) => t == ""
  | _ => true

/-- The message of the error caught at line 167 for each failure path:
the fetch rejection message, the message built at line 156 for a non-ok
response, or the message thrown at line 163 for missing or empty
generated text. -/
def geminiErrorMessage : GeminiOutcome → String
  | GeminiOutcome.fetchError m => m
  | GeminiOutcome.httpError status statusText apiMsg =>
      "Gemini API error: " ++ toString status ++ " " ++ statusText ++ ". " ++ apiMsg
  | GeminiOutcome.ok _ => "No content generated by Gemini API"

/-- The function `generateDebateSummary` (lines 3-204), parametrized by
whether the API key is configured and by the outcome of the remote call:
without a key it throws (line 12); on a successful non-empty generation it
returns the generated text; on every failure it returns the local
fallback template built from the same input data and the caught error
message. -/
def generateDebateSummary (hasKey : Bool) (topic : String) (msgs : List GMessage)
    (votes : Votes) (caps : List GCaption) (sideALabel sideBLabel : String)
    (outcome : GeminiOutcome) : Except String String :=
  if !hasKey then
    Except.error
      "Gemini API key not configured. Please add VITE_GEMINI_API_KEY to your environment variables."
  else
    match outcome with
    | GeminiOutcome.ok (some t) =>
      if t == "" then
        Except.ok (fallbackSummary topic msgs votes caps sideALabel sideBLabel
          (geminiErrorMessage (GeminiOutcome.ok (some t))))
      else Except.ok t
    | o => Except.ok (fallbackSummary topic msgs votes caps sideALabel sideBLabel
        (geminiErrorMessage o))

/-!
Per-side argument extraction, `src/hooks/useDebateSummary.ts`,
`extractSideArguments` (lines 154-161), and the caption stream reader,
`src/hooks/useCaptions.ts`.
-/

/-- The function `extractSideArguments` (lines 154-161): the contents of
the messages of the side in fetch order, followed by the contents of the
captions of the side in fetch order, truncated by `slice(0, 10)`. -/
def extractSideArguments (msgs : List GMessage) (caps : List GCaption) (side : Side) :
    List String :=
  ((msgs.filter (fun m => m.side == some side)).map (fun m => m.content)
    ++ (caps.filter (fun c => c.participant_side == some side)).map (fun c => c.content)).take 10

/-- Modelled from the words of claim C8 for comparison with
`extractSideArguments`: the first ten entries attributed to the side taken
in timestamp-ascending order across both messages and captions (stable,
as in `allContent`). -/
def chronologicalSideArguments (msgs : List GMessage) (caps : List GCaption) (side : Side) :
    List String :=
  ((List.insertionSort tsLe ((msgs.filter (fun m => m.side == some side)).map msgItem
      ++ (caps.filter (fun c => c.participant_side == some side)).map capItem)).map
    (fun e => e.content)).take 10

/-- A row of the `captions` table as seen by the caption stream reader
(`src/hooks/useCaptions.ts`, lines 4-13). -/
structure CaptionRow where
  id : String
  room_id : String
  user_id : String
  participant_side : Option Side
  content : String
  confidence : Rat
  timestamp : Int
  is_final : Bool
deriving DecidableEq

/-- Timestamp-ascending comparison on caption rows (the `order` clause of
the bulk fetch). -/
def rowTsLe (a b : CaptionRow) : Prop := a.timestamp ≤ b.timestamp

instance : DecidableRel rowTsLe := fun a b => inferInstanceAs (Decidable (a.timestamp ≤ b.timestamp))

instance : IsTotal CaptionRow rowTsLe := ⟨fun a b => Int.le_total a.timestamp b.timestamp⟩

instance : IsTrans CaptionRow rowTsLe := ⟨fun _ _ _ h1 h2 => le_trans h1 h2⟩

/-- The initial bulk fetch `fetchCaptions` (lines 43-59): stored rows of
the room with `is_final = true`, ordered by ascending timestamp. -/
def fetchCaptions (stored : List CaptionRow) (roomId : String) : List CaptionRow :=
  List.insertionSort rowTsLe (stored.filter (fun r => r.room_id == roomId && r.is_final))

/-- The live subscription handler (lines 28-35): every delivered insert
for the room is appended to the view; the payload is not checked for
`is_final`. -/
def handleInsertEvent (roomId : String) (view : List CaptionRow) (row : CaptionRow) :
    List CaptionRow :=
  if row.room_id == roomId then view ++ [row] else view

/-- The view of the caption stream reader after the bulk fetch and a
sequence of delivered inserts. -/
def captionsView (stored : List CaptionRow) (roomId : String) (inserts : List CaptionRow) :
    List CaptionRow :=
  inserts.foldl (handleInsertEvent roomId) (fetchCaptions stored roomId)

/-- Two recognizer result lists agree on everything the persistence path
may read as text: positionwise equal finality flags and equal transcripts
at the final positions; the transcripts of interim results are
unconstrained. -/
def InterimAgnostic (a b : SpeechResult) : Prop :=
  a.isFinal = b.isFinal ∧ (a.isFinal = true → a.transcript = b.transcript)

/-- The text written to durable storage by an action, if any. -/
def actionContent : RecAction → Option String
  | RecAction.insertCaption c => some c.content
  | _ => none

/-!
Theorems.  Stability of the merge is expressed through filtering at a
timestamp: a stable sort leaves the relative order of equal keys
unchanged, hence filtering the output at any timestamp must reproduce the
input filtered at that timestamp.
-/

theorem run_nil (cfg : RecConfig) (st : RecState) : run cfg st [] = (st, []) := rfl

theorem run_cons (cfg : RecConfig) (st : RecState) (e : RecEvent) (es : List RecEvent) :
    run cfg st (e :: es) =
      ((run cfg (step cfg st e).1 es).1, (step cfg st e).2 ++ (run cfg (step cfg st e).1 es).2) :=
  rfl

theorem filter_ts_orderedInsert (t : Int) (x : ContentItem) (l : List ContentItem) :
    (List.orderedInsert tsLe x l).filter (fun e => e.timestamp == t)
      = if x.timestamp == t
        then x :: l.filter (fun e => e.timestamp == t)
        else l.filter (fun e => e.timestamp == t) := by
  induction l with
  | nil => simp [List.orderedInsert, List.filter_cons]
  | cons b l ih =>
    by_cases hxb : tsLe x b
    · rw [List.orderedInsert, if_pos hxb, List.filter_cons]
    · rw [List.orderedInsert, if_neg hxb, List.filter_cons, ih, List.filter_cons]
      have hlt : b.timestamp < x.timestamp := lt_of_not_le hxb
      by_cases hxt : (x.timestamp == t) = true
      · have hbt : (b.timestamp == t) = false := by
          have hx : x.timestamp = t := by exact_mod_cast beq_iff_eq.mp hxt
          exact beq_eq_false_iff_ne.mpr (by omega)
        simp [hxt, hbt]
      · simp only [eq_self_iff_true] at hxt
        simp [hxt]

theorem filter_ts_insertionSort (t : Int) (l : List ContentItem) :
    (List.insertionSort tsLe l).filter (fun e => e.timestamp == t)
      = l.filter (fun e => e.timestamp == t) := by
  induction l with
  | nil => rfl
  | cons x l ih =>
    rw [List.insertionSort, filter_ts_orderedInsert, ih, List.filter_cons]

/-- C1: for every room input, the merged sequence `allContent` handed to
the synthesizer is sorted by ascending timestamp, is a permutation of the
tagged inputs, and is stable: filtering the merge at any timestamp
reproduces the input entries with that timestamp in input order, which is
all messages with that timestamp in fetch order followed by all captions
with that timestamp in fetch order.  In particular, at equal timestamps
messages precede captions, and entries of one source keep their relative
fetch order. -/
theorem C1_merge_sorted_and_stable (msgs : List GMessage) (caps : List GCaption) :
    List.Sorted tsLe (allContent msgs caps) ∧
    List.Perm (allContent msgs caps) (msgs.map msgItem ++ caps.map capItem) ∧
    ∀ t : Int,
      (allContent msgs caps).filter (fun e => e.timestamp == t)
        = (msgs.map msgItem).filter (fun e => e.timestamp == t)
          ++ (caps.map capItem).filter (fun e => e.timestamp == t) := by
  refine ⟨List.sorted_insertionSort tsLe _, List.perm_insertionSort tsLe _, fun t => ?_⟩
  rw [allContent, filter_ts_insertionSort, List.filter_append]

/-- C7: whenever the generative call fails for any reason (network
rejection, non-2xx response, or absent or empty generated text), the
synthesizer returns exactly the deterministic local fallback template
computed from the same input data together with the caught error message,
and that content is never empty.  The model is a pure function, so two
runs with identical inputs and identical failure return identical
content. -/
theorem C7_failure_returns_deterministic_fallback (topic : String) (msgs : List GMessage)
    (votes : Votes) (caps : List GCaption) (sA sB : String) (outcome : GeminiOutcome)
    (hfail : isFailure outcome = true) :
    generateDebateSummary true topic msgs votes caps sA sB outcome
      = Except.ok (fallbackSummary topic msgs votes caps sA sB (geminiErrorMessage outcome)) ∧
    (fallbackSummary topic msgs votes caps sA sB (geminiErrorMessage outcome)).length ≠ 0 := by
  constructor
  · cases outcome with
    | fetchError m => rfl
    | httpError s stxt m => rfl
    | ok g =>
      cases g with
      | none => rfl
      | some t =>
        have ht : (t == "") = true := by simpa [isFailure] using hfail
        simp [generateDebateSummary, ht]
  · rw [fallbackSummary, String.length_append]
    have h1 : ("*" : String).length = 1 := rfl
    rw [h1]
    omega

/-- Witness for C7 at a concrete input: a forced network failure on a
small room yields the fallback, which is non-empty. -/
theorem C7_failure_returns_deterministic_fallback_witness :
    generateDebateSummary true "Cats or dogs" [] ⟨3, 1⟩ [] "For" "Against"
        (GeminiOutcome.fetchError "Failed to fetch")
      = Except.ok (fallbackSummary "Cats or dogs" [] ⟨3, 1⟩ [] "For" "Against"
          (geminiErrorMessage (GeminiOutcome.fetchError "Failed to fetch"))) ∧
    (fallbackSummary "Cats or dogs" [] ⟨3, 1⟩ [] "For" "Against"
        (geminiErrorMessage (GeminiOutcome.fetchError "Failed to fetch"))).length ≠ 0 :=
  C7_failure_returns_deterministic_fallback "Cats or dogs" [] ⟨3, 1⟩ [] "For" "Against"
    (GeminiOutcome.fetchError "Failed to fetch") rfl

/-- C8 counterexample: a side A message at timestamp 5 and a side A
caption at timestamp 1.  The persisted list puts the message first
(messages are concatenated before captions at lines 155-158 of
`src/hooks/useDebateSummary.ts`), while the chronological first-ten list
puts the earlier caption first, so the claim as stated is false. -/
theorem C8_counterexample :
    extractSideArguments
        [{ content := "M", side := some Side.side_a, timestamp := 5, user_id := none }]
        [{ content := "C", participant_side := some Side.side_a, timestamp := 1,
           confidence := none }]
        Side.side_a
      ≠ chronologicalSideArguments
        [{ content := "M", side := some Side.side_a, timestamp := 5, user_id := none }]
        [{ content := "C", participant_side := some Side.side_a, timestamp := 1,
           confidence := none }]
        Side.side_a := by
  decide

/-- C8 amended: for each side, the persisted `perSideArguments` list is
the first ten of the side's message contents in fetch order followed by
the side's caption contents in fetch order; it coincides with the first
ten side entries in chronological order across both sources exactly under
the additional assumptions that each source arrives timestamp-ascending
(which the fetches guarantee) and every message of the side is timestamped
no later than every caption of the side. -/
theorem C8_amended (msgs : List GMessage) (caps : List GCaption) (side : Side)
    (hm : List.Pairwise (fun a b : GMessage => a.timestamp ≤ b.timestamp)
      (msgs.filter (fun m => m.side == some side)))
    (hc : List.Pairwise (fun a b : GCaption => a.timestamp ≤ b.timestamp)
      (caps.filter (fun c => c.participant_side == some side)))
    (hmc : ∀ m ∈ msgs.filter (fun m => m.side == some side),
      ∀ c ∈ caps.filter (fun c => c.participant_side == some side),
        m.timestamp ≤ c.timestamp) :
    extractSideArguments msgs caps side = chronologicalSideArguments msgs caps side := by
  have hsorted : List.Sorted tsLe
      ((msgs.filter (fun m => m.side == some side)).map msgItem
        ++ (caps.filter (fun c => c.participant_side == some side)).map capItem) := by
    rw [List.Sorted, List.pairwise_append]
    refine ⟨?_, ?_, ?_⟩
    · exact (List.pairwise_map).mpr (hm.imp (fun h => h))
    · exact (List.pairwise_map).mpr (hc.imp (fun h => h))
    · intro a ha b hb
      rcases List.mem_map.mp ha with ⟨m, hmem, rfl⟩
      rcases List.mem_map.mp hb with ⟨c, hcmem, rfl⟩
      exact hmc m hmem c hcmem
  rw [chronologicalSideArguments, hsorted.insertionSort_eq, List.map_append,
    List.map_map, List.map_map]
  rfl

/-- Witness for C8 amended at a concrete input: two sorted side A
messages at timestamps 1 and 2 and one side A caption at timestamp 3. -/
theorem C8_amended_witness :
    extractSideArguments
        [{ content := "m1", side := some Side.side_a, timestamp := 1, user_id := none },
         { content := "m2", side := some Side.side_a, timestamp := 2, user_id := none }]
        [{ content := "c1", participant_side := some Side.side_a, timestamp := 3,
           confidence := none }]
        Side.side_a
      = chronologicalSideArguments
        [{ content := "m1", side := some Side.side_a, timestamp := 1, user_id := none },
         { content := "m2", side := some Side.side_a, timestamp := 2, user_id := none }]
        [{ content := "c1", participant_side := some Side.side_a, timestamp := 3,
           confidence := none }]
        Side.side_a :=
  C8_amended _ _ _ (by decide) (by decide) (by decide)

theorem mem_foldl_handleInsert (roomId : String) :
    ∀ (inserts : List CaptionRow) (init : List CaptionRow) (r : CaptionRow),
      r ∈ inserts.foldl (handleInsertEvent roomId) init → r ∈ init ∨ r ∈ inserts := by
  intro inserts
  induction inserts with
  | nil => intro init r h; exact Or.inl h
  | cons x xs ih =>
    intro init r h
    rw [List.foldl_cons] at h
    rcases ih _ r h with h1 | h1
    · rw [handleInsertEvent] at h1
      by_cases hx : (x.room_id == roomId) = true
      · rw [if_pos hx] at h1
        rcases List.mem_append.mp h1 with h2 | h2
        · exact Or.inl h2
        · have hrx : r = x := List.mem_singleton.mp h2
          exact Or.inr (hrx ▸ List.mem_cons_self x xs)
      · rw [if_neg hx] at h1
        exact Or.inl h1
    · exact Or.inr (List.mem_cons_of_mem _ h1)

/-- C10: the initial bulk fetch of the caption stream reader returns only
rows with `is_final = true`; the live subscription appends every delivered
insert for the room unconditionally, with no finality check; consequently
the view consists of final captions only under the assumption that every
inserted row has `is_final = true`, while any non-final row delivered for
the room does enter the view. -/
theorem C10_reader_final_only_conditional (stored : List CaptionRow) (roomId : String)
    (inserts : List CaptionRow) (hw : ∀ row ∈ inserts, row.is_final = true) :
    (∀ r ∈ fetchCaptions stored roomId, r.is_final = true) ∧
    (∀ (view : List CaptionRow) (row : CaptionRow), row.room_id = roomId →
        handleInsertEvent roomId view row = view ++ [row]) ∧
    (∀ r ∈ captionsView stored roomId inserts, r.is_final = true) ∧
    (∀ row : CaptionRow, row.room_id = roomId → row ∈ captionsView [] roomId [row]) := by
  have hfetch : ∀ r ∈ fetchCaptions stored roomId, r.is_final = true := by
    intro r hr
    rw [fetchCaptions, List.mem_insertionSort, List.mem_filter] at hr
    exact (Bool.and_eq_true _ _ |>.mp hr.2).2
  refine ⟨hfetch, ?_, ?_, ?_⟩
  · intro view row hrow
    rw [handleInsertEvent, if_pos (beq_iff_eq.mpr hrow)]
  · intro r hr
    rcases mem_foldl_handleInsert roomId inserts _ r hr with h | h
    · exact hfetch r h
    · exact hw r h
  · intro row hrow
    have : captionsView [] roomId [row] = [row] := by
      rw [captionsView, fetchCaptions]
      simp [handleInsertEvent, beq_iff_eq.mpr hrow]
    rw [this]
    exact List.mem_singleton.mpr rfl

/-- Witness for C10 at a concrete input: one stored final row, one final
insert delivered. -/
theorem C10_reader_final_only_conditional_witness :
    (∀ r ∈ fetchCaptions
        [{ id := "a", room_id := "r1", user_id := "u1", participant_side := some Side.side_a,
           content := "hello", confidence := 9/10, timestamp := 1, is_final := true }] "r1",
      r.is_final = true) ∧
    (∀ (view : List CaptionRow) (row : CaptionRow), row.room_id = "r1" →
        handleInsertEvent "r1" view row = view ++ [row]) ∧
    (∀ r ∈ captionsView
        [{ id := "a", room_id := "r1", user_id := "u1", participant_side := some Side.side_a,
           content := "hello", confidence := 9/10, timestamp := 1, is_final := true }] "r1"
        [{ id := "b", room_id := "r1", user_id := "u2", participant_side := some Side.side_b,
           content := "there", confidence := 1/2, timestamp := 2, is_final := true }],
      r.is_final = true) ∧
    (∀ row : CaptionRow, row.room_id = "r1" → row ∈ captionsView [] "r1" [row]) :=
  C10_reader_final_only_conditional _ "r1" _ (by decide)

theorem mem_onresultActions (cfg : RecConfig) (rs : List SpeechResult) (i : Nat)
    (c : CaptionInsert) (hc : RecAction.insertCaption c ∈ onresultActions cfg rs i) :
    c.content = jsTrim (finalTextOf rs i) ∧ c.confidence = defaultedConfidence rs i ∧
      c.is_final = true := by
  rw [onresultActions] at hc
  split at hc
  · split at hc
    · rw [List.mem_singleton] at hc
      injection hc with hc
      rw [hc]
      exact ⟨rfl, rfl, rfl⟩
    · simp at hc
  · simp at hc

theorem step_insert_is_final (cfg : RecConfig) (st : RecState) (e : RecEvent) (c : CaptionInsert)
    (hc : RecAction.insertCaption c ∈ (step cfg st e).2) : c.is_final = true := by
  cases e with
  | started => simp [step] at hc
  | ended => simp [step] at hc
  | errored kind => simp [step] at hc
  | result rs i => exact (mem_onresultActions cfg rs i c hc).2.2
  | userStart ok =>
    simp only [step, startListening] at hc
    split at hc
    · split at hc <;> simp at hc
    · split at hc <;> simp at hc
  | userStop =>
    simp only [step, stopListening] at hc
    split at hc <;> simp at hc
  | timerFire i =>
    simp only [step, timerFire] at hc
    split at hc
    · split at hc <;> simp at hc
    · simp at hc

theorem run_insert_is_final (cfg : RecConfig) :
    ∀ (events : List RecEvent) (st : RecState) (c : CaptionInsert),
      RecAction.insertCaption c ∈ (run cfg st events).2 → c.is_final = true := by
  intro events
  induction events with
  | nil => intro st c h; simp [run] at h
  | cons e es ih =>
    intro st c h
    rw [run_cons] at h
    rcases List.mem_append.mp h with h | h
    · exact step_insert_is_final cfg st e c h
    · exact ih _ c h

theorem forallTwo_drop {R : SpeechResult → SpeechResult → Prop} :
    ∀ (i : Nat) {l₁ l₂ : List SpeechResult}, List.Forall₂ R l₁ l₂ →
      List.Forall₂ R (l₁.drop i) (l₂.drop i) := by
  intro i
  induction i with
  | zero => intro l₁ l₂ h; simpa using h
  | succ n ih =>
    intro l₁ l₂ h
    cases h with
    | nil => exact List.Forall₂.nil
    | cons hab htl => simpa [List.drop_succ_cons] using ih htl

theorem finalConcat_congr :
    ∀ (l₁ l₂ : List SpeechResult), List.Forall₂ InterimAgnostic l₁ l₂ →
      finalConcat l₁ = finalConcat l₂ := by
  intro l₁
  induction l₁ with
  | nil => intro l₂ h; cases h; rfl
  | cons a l₁ ih =>
    intro l₂ h
    cases h with
    | cons hab htl =>
      rename_i b l₂'
      rcases hab with ⟨hfin, htr⟩
      rw [finalConcat, finalConcat, ih _ htl]
      by_cases hf : a.isFinal = true
      · rw [if_pos hf, if_pos (hfin ▸ hf), htr hf]
      · rw [if_neg hf, if_neg (hfin ▸ hf)]

theorem onresult_content_congr (cfg : RecConfig) (st : RecState)
    (rs₁ rs₂ : List SpeechResult) (i : Nat)
    (h : List.Forall₂ InterimAgnostic rs₁ rs₂) :
    ((onresult cfg st rs₁ i).2).map actionContent
      = ((onresult cfg st rs₂ i).2).map actionContent := by
  have hfin : finalTextOf rs₁ i = finalTextOf rs₂ i :=
    finalConcat_congr _ _ (forallTwo_drop i h)
  simp only [onresult, onresultActions, persistsCaption, hfin]
  split
  · split
    · simp [actionContent]
    · rfl
  · rfl

/-- C2: over every event history, every caption record the recognition
pipeline writes has `is_final = true`; moreover the persisted text is
computed from final results only: two result batches that agree on
finality flags and on the transcripts of final results (with arbitrary
interim transcripts) produce persisted captions with identical contents,
so interim text never reaches a persisted caption and lives only in the
transient `transcript` state. -/
theorem C2_only_final_text_persisted :
    (∀ (cfg : RecConfig) (st : RecState) (events : List RecEvent) (c : CaptionInsert),
        RecAction.insertCaption c ∈ (run cfg st events).2 → c.is_final = true) ∧
    (∀ (cfg : RecConfig) (st : RecState) (rs₁ rs₂ : List SpeechResult) (i : Nat),
        List.Forall₂ InterimAgnostic rs₁ rs₂ →
        ((onresult cfg st rs₁ i).2).map actionContent
          = ((onresult cfg st rs₂ i).2).map actionContent) :=
  ⟨fun cfg st events c h => run_insert_is_final cfg events st c h,
   fun cfg st rs₁ rs₂ i h => onresult_content_congr cfg st rs₁ rs₂ i h⟩

/-- Witness for C2 at concrete inputs: replacing the interim transcript
and confidences of a batch leaves the persisted content unchanged. -/
theorem C2_only_final_text_persisted_witness :
    ((onresult anchorCfg initialRecState
        [{ transcript := "um ", isFinal := false, confidence := none },
         { transcript := "hello world", isFinal := true, confidence := some (1/2) }] 0).2).map
      actionContent
      = ((onresult anchorCfg initialRecState
        [{ transcript := "INTERIM NOISE", isFinal := false, confidence := some 0 },
         { transcript := "hello world", isFinal := true, confidence := none }] 0).2).map
      actionContent :=
  C2_only_final_text_persisted.2 anchorCfg initialRecState _ _ 0
    (List.Forall₂.cons ⟨rfl, fun h => by cases h⟩
      (List.Forall₂.cons ⟨rfl, fun _ => rfl⟩ List.Forall₂.nil))

theorem defaultedConfidence_bounds (rs : List SpeechResult) (i : Nat)
    (hrange : ∀ r ∈ rs, ∀ q : Rat, r.confidence = some q → 0 ≤ q ∧ q ≤ 1) :
    0 < defaultedConfidence rs i ∧ defaultedConfidence rs i ≤ 1 := by
  rw [defaultedConfidence]
  split
  · norm_num
  next r hg =>
    split
    · norm_num
    next q hrc =>
      split
      next hq => norm_num
      next hq =>
        have hqr := hrange r (List.get?_mem hg) q hrc
        have hq0 : q ≠ 0 := by
          intro h
          exact hq (beq_iff_eq.mpr h)
        exact ⟨lt_of_le_of_ne hqr.1 (Ne.symm hq0), hqr.2⟩

theorem defaultedConfidence_default (rs : List SpeechResult) (i : Nat)
    (h : (rs.get? i).bind (fun r => r.confidence) = none ∨
      (rs.get? i).bind (fun r => r.confidence) = some 0) :
    defaultedConfidence rs i = 9/10 := by
  rw [defaultedConfidence]
  split
  · rfl
  next r hg =>
    split
    · rfl
    next q hrc =>
      rw [hg] at h
      simp only [Option.some_bind, hrc] at h
      rcases h with h | h
      · cases h
      · have hq : q = 0 := Option.some.inj h
        rw [if_pos (beq_iff_eq.mpr hq)]

/-- C9: every caption emitted by the persistence path of `onresult`
carries a confidence strictly greater than 0 and at most 1, provided the
recognizer reports confidences in the unit interval; the fixed default
9/10 is substituted both when the indexed result or its confidence is
absent and when the reported confidence is exactly 0, so a
pipeline-written caption never records confidence 0. -/
theorem C9_persisted_confidence_bounds (cfg : RecConfig) (st : RecState)
    (rs : List SpeechResult) (i : Nat) (c : CaptionInsert)
    (hmem : RecAction.insertCaption c ∈ (onresult cfg st rs i).2)
    (hrange : ∀ r ∈ rs, ∀ q : Rat, r.confidence = some q → 0 ≤ q ∧ q ≤ 1) :
    (0 < c.confidence ∧ c.confidence ≤ 1) ∧
    ((rs.get? i).bind (fun r => r.confidence) = none ∨
        (rs.get? i).bind (fun r => r.confidence) = some 0 →
      c.confidence = 9/10) := by
  have hcc : c.confidence = defaultedConfidence rs i :=
    (mem_onresultActions cfg rs i c hmem).2.1
  rw [hcc]
  exact ⟨defaultedConfidence_bounds rs i hrange, defaultedConfidence_default rs i⟩

/-- Witness for C9 at a concrete input: a final result whose reported
confidence is exactly 0 is persisted with the default confidence 9/10,
which lies in the half-open unit interval. -/
theorem C9_persisted_confidence_bounds_witness :
    (0 < (9/10 : Rat) ∧ (9/10 : Rat) ≤ 1) ∧
    ((([{ transcript := "hi", isFinal := true, confidence := some 0 }] :
          List SpeechResult).get? 0).bind (fun r => r.confidence) = none ∨
        (([{ transcript := "hi", isFinal := true, confidence := some 0 }] :
          List SpeechResult).get? 0).bind (fun r => r.confidence) = some 0 →
      ({ room_id := "room1", user_id := "user1", participant_side := Side.side_a,
         content := "hi", confidence := 9/10, is_final := true } : CaptionInsert).confidence
        = 9/10) := by
  have h := C9_persisted_confidence_bounds anchorCfg initialRecState
    [{ transcript := "hi", isFinal := true, confidence := some 0 }] 0
    { room_id := "room1", user_id := "user1", participant_side := Side.side_a,
      content := "hi", confidence := 9/10, is_final := true }
    (List.mem_singleton.mpr rfl)
    (by
      intro r hr q hq
      rw [List.mem_singleton] at hr
      subst hr
      injection hq with hq0
      rw [← hq0]
      norm_num)
  exact h

theorem run_append (cfg : RecConfig) (es₁ es₂ : List RecEvent) :
    ∀ st : RecState,
      run cfg st (es₁ ++ es₂)
        = ((run cfg (run cfg st es₁).1 es₂).1,
           (run cfg st es₁).2 ++ (run cfg (run cfg st es₁).1 es₂).2) := by
  induction es₁ with
  | nil => intro st; simp [run]
  | cons e es ih =>
    intro st
    rw [List.cons_append, run_cons, run_cons, ih]
    simp [List.append_assoc]

theorem onend_eq_of_cond (cfg : RecConfig) (st : RecState)
    (hcond : (cfg.isAnchor && cfg.autoStart && cfg.participantSide.isSome
        && decide (st.autoRestartCount < 10)) = true) :
    onend cfg st =
      { st with isListening := false
                autoRestartCount := st.autoRestartCount + 1
                pendingTimers := st.pendingTimers
                  ++ [⟨st.nextTimerId, 1000 + st.autoRestartCount * 500⟩]
                trackedTimer := some st.nextTimerId
                nextTimerId := st.nextTimerId + 1
                scheduledDelays := st.scheduledDelays
                  ++ [1000 + st.autoRestartCount * 500] } := by
  rw [onend]
  split
  · rfl
  next h => exact absurd hcond h

theorem onend_eq_of_not_cond (cfg : RecConfig) (st : RecState)
    (hcond : ¬ ((cfg.isAnchor && cfg.autoStart && cfg.participantSide.isSome
        && decide (st.autoRestartCount < 10)) = true)) :
    onend cfg st = { st with isListening := false } := by
  rw [onend]
  split
  next h => exact absurd h hcond
  · rfl

theorem onend_fields (cfg : RecConfig) (st : RecState)
    (hcond : (cfg.isAnchor && cfg.autoStart && cfg.participantSide.isSome
        && decide (st.autoRestartCount < 10)) = true) :
    (onend cfg st).autoRestartCount = st.autoRestartCount + 1 ∧
    (onend cfg st).pendingTimers
      = st.pendingTimers ++ [⟨st.nextTimerId, 1000 + st.autoRestartCount * 500⟩] ∧
    (onend cfg st).scheduledDelays
      = st.scheduledDelays ++ [1000 + st.autoRestartCount * 500] ∧
    (onend cfg st).nextTimerId = st.nextTimerId + 1 := by
  rw [onend_eq_of_cond cfg st hcond]
  exact ⟨rfl, rfl, rfl, rfl⟩

theorem onend_isListening (cfg : RecConfig) (st : RecState) :
    (onend cfg st).isListening = false := by
  rw [onend]
  split <;> rfl

theorem runEnds_spec (cfg : RecConfig) (hA : cfg.isAnchor = true) (hAS : cfg.autoStart = true)
    (hS : cfg.participantSide.isSome = true) (st : RecState) :
    ∀ n : Nat, st.autoRestartCount + n ≤ 10 →
      (run cfg st (List.replicate n RecEvent.ended)).1.autoRestartCount
          = st.autoRestartCount + n ∧
      (run cfg st (List.replicate n RecEvent.ended)).1.pendingTimers
          = st.pendingTimers ++ (List.range n).map (fun k =>
              RestartTimer.mk (st.nextTimerId + k) (1000 + (st.autoRestartCount + k) * 500)) ∧
      (run cfg st (List.replicate n RecEvent.ended)).1.scheduledDelays
          = st.scheduledDelays ++ (List.range n).map (fun k =>
              1000 + (st.autoRestartCount + k) * 500) ∧
      (run cfg st (List.replicate n RecEvent.ended)).1.nextTimerId = st.nextTimerId + n := by
  intro n
  induction n with
  | zero => intro h; simp [run]
  | succ n ih =>
    intro h
    obtain ⟨h1, h2, h3, h4⟩ := ih (by omega)
    rw [List.replicate_succ', run_append]
    have hstep : (run cfg (run cfg st (List.replicate n RecEvent.ended)).1 [RecEvent.ended]).1
        = onend cfg (run cfg st (List.replicate n RecEvent.ended)).1 := rfl
    rw [hstep]
    have hcond : (cfg.isAnchor && cfg.autoStart && cfg.participantSide.isSome
        && decide ((run cfg st (List.replicate n RecEvent.ended)).1.autoRestartCount < 10))
          = true := by
      rw [h1, hA, hAS, hS]
      simp only [Bool.true_and, decide_eq_true_eq]
      omega
    obtain ⟨f1, f2, f3, f4⟩ := onend_fields cfg _ hcond
    refine ⟨?_, ?_, ?_, ?_⟩
    · rw [f1, h1]
      omega
    · rw [f2, h2, h4, h1, List.range_succ, List.map_append, List.append_assoc]
      rfl
    · rw [f3, h3, h1, List.range_succ, List.map_append, List.append_assoc]
      rfl
    · rw [f4, h4]
      omega

/-- C3 counterexample: a permission-denied error followed by the end
event the recognizer fires afterwards.  The error handler sets the fatal
message and creates no timer, but the end handler then schedules a restart
timer, so restart attempts are not zero after a permission-denied error,
contrary to the claim. -/
theorem C3_counterexample :
    ((run anchorCfg initialRecState
        [RecEvent.errored "not-allowed"]).1.pendingTimers).length = 0 ∧
    (run anchorCfg initialRecState [RecEvent.errored "not-allowed"]).1.errorMsg
      = "Microphone access denied. Please allow microphone access for automatic captions." ∧
    ((run anchorCfg initialRecState
        [RecEvent.errored "not-allowed", RecEvent.ended]).1.pendingTimers).length = 1 := by
  decide

/-- C3 amended: on a permission-denied error the session records the
fatal microphone-access error message, stops listening, and the error
handler itself creates no restart timer; however auto-restart is not
disabled by the error: the end event that follows still schedules a
restart timer whenever the anchor auto-restart conditions hold and the
attempt count is below the cap. -/
theorem C3_amended (cfg : RecConfig) (st : RecState)
    (hA : cfg.isAnchor = true) (hAS : cfg.autoStart = true)
    (hS : cfg.participantSide.isSome = true) (hcap : st.autoRestartCount < 10) :
    (onerror st "not-allowed").pendingTimers = st.pendingTimers ∧
    (onerror st "not-allowed").errorMsg
      = "Microphone access denied. Please allow microphone access for automatic captions." ∧
    (onerror st "not-allowed").isListening = false ∧
    (onend cfg (onerror st "not-allowed")).pendingTimers
      = st.pendingTimers ++ [⟨st.nextTimerId, 1000 + st.autoRestartCount * 500⟩] := by
  have hcond : (cfg.isAnchor && cfg.autoStart && cfg.participantSide.isSome
      && decide ((onerror st "not-allowed").autoRestartCount < 10)) = true := by
    have hc2 : (onerror st "not-allowed").autoRestartCount = st.autoRestartCount := rfl
    rw [hc2, hA, hAS, hS]
    simp only [Bool.true_and, decide_eq_true_eq]
    omega
  refine ⟨rfl, rfl, rfl, ?_⟩
  rw [(onend_fields cfg _ hcond).2.1]
  rfl

/-- Witness for C3 amended at a concrete input: the anchor configuration
and the initial state. -/
theorem C3_amended_witness :
    (onerror initialRecState "not-allowed").pendingTimers = initialRecState.pendingTimers ∧
    (onerror initialRecState "not-allowed").errorMsg
      = "Microphone access denied. Please allow microphone access for automatic captions." ∧
    (onerror initialRecState "not-allowed").isListening = false ∧
    (onend anchorCfg (onerror initialRecState "not-allowed")).pendingTimers
      = initialRecState.pendingTimers
        ++ [⟨initialRecState.nextTimerId,
             1000 + initialRecState.autoRestartCount * 500⟩] :=
  C3_amended anchorCfg initialRecState rfl rfl rfl (by decide)

theorem stopListening_fst (st : RecState) :
    (stopListening st).1 =
      match st.trackedTimer with
      | some i => { st with pendingTimers := st.pendingTimers.filter (fun t => t.timerId != i) }
      | none => st := by
  rw [stopListening]
  split <;> rfl

/-- C4 counterexample: an explicit stop of a listening session is
followed by the end event the stop provokes; that end event schedules a
restart timer, and when the timer fires the hook calls
`recognition.start()` again.  The emitted action trace is the stop call
followed by an automatic start call, so the session does restart after an
explicit stop, contrary to the claim. -/
theorem C4_counterexample :
    (run anchorCfg initialRecState
        [RecEvent.started, RecEvent.userStop, RecEvent.ended, RecEvent.timerFire 0]).2
      = [RecAction.callStop, RecAction.callStart] := by
  decide

/-- C4 amended: an explicit stop cancels the tracked pending restart
timer (no timer it tracked survives) and stops the recognizer, but it
does not disable auto-restart: the end event fired by stopping schedules
a fresh restart timer whenever the anchor auto-restart conditions hold
and the attempt count is below the cap, and when that timer fires the
hook initiates an automatic recognition start. -/
theorem C4_amended (cfg : RecConfig) (st : RecState)
    (hA : cfg.isAnchor = true) (hAS : cfg.autoStart = true)
    (hS : cfg.participantSide.isSome = true) (hcap : st.autoRestartCount < 10) :
    (∀ t ∈ ((stopListening st).1).pendingTimers, st.trackedTimer ≠ some t.timerId) ∧
    RestartTimer.mk st.nextTimerId (1000 + st.autoRestartCount * 500)
      ∈ (onend cfg (stopListening st).1).pendingTimers ∧
    (timerFire (onend cfg (stopListening st).1) st.nextTimerId).2 = [RecAction.callStart] := by
  have hsc : (stopListening st).1.autoRestartCount = st.autoRestartCount := by
    rw [stopListening_fst]
    cases st.trackedTimer <;> rfl
  have hsn : (stopListening st).1.nextTimerId = st.nextTimerId := by
    rw [stopListening_fst]
    cases st.trackedTimer <;> rfl
  have hcond : (cfg.isAnchor && cfg.autoStart && cfg.participantSide.isSome
      && decide ((stopListening st).1.autoRestartCount < 10)) = true := by
    rw [hsc, hA, hAS, hS]
    simp only [Bool.true_and, decide_eq_true_eq]
    omega
  obtain ⟨f1, f2, f3, f4⟩ := onend_fields cfg _ hcond
  have hmemT : RestartTimer.mk st.nextTimerId (1000 + st.autoRestartCount * 500)
      ∈ (onend cfg (stopListening st).1).pendingTimers := by
    rw [f2, hsn, hsc]
    exact List.mem_append_right _ (List.mem_singleton.mpr rfl)
  refine ⟨?_, hmemT, ?_⟩
  · intro t ht
    rw [stopListening_fst] at ht
    cases htr : st.trackedTimer with
    | none => simp
    | some i =>
      rw [htr] at ht
      simp only at ht
      have hne : (t.timerId != i) = true := (List.mem_filter.mp ht).2
      intro hcontra
      have : i = t.timerId := Option.some.inj hcontra
      rw [this] at hne
      simp at hne
  · have hany : ((onend cfg (stopListening st).1).pendingTimers.any
        (fun t => t.timerId == st.nextTimerId)) = true :=
      List.any_eq_true.mpr ⟨_, hmemT, by simp⟩
    rw [timerFire, if_pos hany]
    simp [onend_isListening]

/-- Witness for C4 amended at a concrete input: the anchor configuration
and the initial state. -/
theorem C4_amended_witness :
    (∀ t ∈ ((stopListening initialRecState).1).pendingTimers,
        initialRecState.trackedTimer ≠ some t.timerId) ∧
    RestartTimer.mk initialRecState.nextTimerId
        (1000 + initialRecState.autoRestartCount * 500)
      ∈ (onend anchorCfg (stopListening initialRecState).1).pendingTimers ∧
    (timerFire (onend anchorCfg (stopListening initialRecState).1)
        initialRecState.nextTimerId).2 = [RecAction.callStart] :=
  C4_amended anchorCfg initialRecState rfl rfl rfl (by decide)

/-- C5 counterexample: two consecutive unsolicited end events.  The
second scheduling overwrites the tracked timer reference without any
`clearTimeout`, so both restart timers are pending at once, contrary to
the claimed single-pending-timer invariant. -/
theorem C5_counterexample :
    ((run anchorCfg initialRecState
        [RecEvent.ended, RecEvent.ended]).1.pendingTimers).length = 2 := by
  decide

/-- C5 amended: the hook tracks only the most recently scheduled restart
timer; scheduling a new restart does not cancel a previously pending one,
so after n consecutive unsolicited end events (n up to the cap of 10)
exactly n restart timers are pending simultaneously, with distinct
identifiers 0 to n-1. -/
theorem C5_amended (n : Nat) (hn : n ≤ 10) :
    ((run anchorCfg initialRecState (List.replicate n RecEvent.ended)).1.pendingTimers).length
        = n ∧
    ((run anchorCfg initialRecState
        (List.replicate n RecEvent.ended)).1.pendingTimers).map RestartTimer.timerId
      = List.range n := by
  have h := runEnds_spec anchorCfg rfl rfl rfl initialRecState n
    (by simp only [initialRecState]; omega)
  rw [h.2.1]
  constructor
  · simp [initialRecState]
  · simp only [initialRecState, List.nil_append, List.map_map]
    exact (List.map_congr_left fun k _ => Nat.zero_add k).trans (List.map_id _)

/-- Witness for C5 amended at a concrete input: three consecutive
unsolicited end events leave three pending restart timers. -/
theorem C5_amended_witness :
    ((run anchorCfg initialRecState
        (List.replicate 3 RecEvent.ended)).1.pendingTimers).length = 3 ∧
    ((run anchorCfg initialRecState
        (List.replicate 3 RecEvent.ended)).1.pendingTimers).map RestartTimer.timerId
      = List.range 3 :=
  C5_amended 3 (by norm_num)

/-- C6 counterexample: one unsolicited end event increments the attempt
count to 1; the start event fired by the successful automatic restart
then resets the count to 0, although no explicit or user-initiated
restart occurred.  So the count does not reset only on explicit or
user-initiated restarts, contrary to the claim. -/
theorem C6_counterexample :
    (run anchorCfg initialRecState [RecEvent.ended]).1.autoRestartCount = 1 ∧
    (run anchorCfg initialRecState
        [RecEvent.ended, RecEvent.started]).1.autoRestartCount = 0 := by
  decide

/-- C6 amended: the attempt count increments by one on each consecutive
unsolicited end event while the anchor auto-restart conditions hold and
the count is below the cap of 10; it resets to zero on every recognizer
start event, whether the start was user-initiated or an automatic
restart, and on every accepted `startListening` call regardless of the
success of the underlying start; once the count has reached the cap, an
end event schedules no further restart timer and only stops listening;
and over a run of consecutive unsolicited ends the scheduled delays are
1000 + 500k milliseconds for attempt k, a strictly increasing sequence. -/
theorem C6_amended (cfg : RecConfig) (hA : cfg.isAnchor = true) (hAS : cfg.autoStart = true)
    (hS : cfg.participantSide.isSome = true) :
    (∀ st : RecState, (onstart st).autoRestartCount = 0) ∧
    (∀ (st : RecState) (ok : Bool), cfg.isSupported = true →
        ((startListening cfg st ok).1).autoRestartCount = 0) ∧
    (∀ st : RecState, st.autoRestartCount < 10 →
        (onend cfg st).autoRestartCount = st.autoRestartCount + 1) ∧
    (∀ st : RecState, 10 ≤ st.autoRestartCount →
        onend cfg st = { st with isListening := false }) ∧
    (∀ n : Nat, n ≤ 10 →
        (run cfg initialRecState (List.replicate n RecEvent.ended)).1.scheduledDelays
          = (List.range n).map (fun k => 1000 + k * 500) ∧
        List.Pairwise (fun a b => a < b)
          ((run cfg initialRecState (List.replicate n RecEvent.ended)).1.scheduledDelays)) := by
  obtain ⟨side, hps⟩ := Option.isSome_iff_exists.mp hS
  refine ⟨fun st => rfl, ?_, ?_, ?_, ?_⟩
  · intro st ok hsup
    cases ok <;> simp [startListening, hsup, hps]
  · intro st hlt
    have hcond : (cfg.isAnchor && cfg.autoStart && cfg.participantSide.isSome
        && decide (st.autoRestartCount < 10)) = true := by
      rw [hA, hAS, hS]
      simp only [Bool.true_and, decide_eq_true_eq]
      omega
    exact (onend_fields cfg st hcond).1
  · intro st hge
    refine onend_eq_of_not_cond cfg st ?_
    rw [hA, hAS, hS]
    simp only [Bool.true_and, decide_eq_true_eq]
    omega
  · intro n hn
    have h := runEnds_spec cfg hA hAS hS initialRecState n
      (by simp only [initialRecState]; omega)
    have heq : (run cfg initialRecState (List.replicate n RecEvent.ended)).1.scheduledDelays
        = (List.range n).map (fun k => 1000 + k * 500) := by
      rw [h.2.2.1]
      simp [initialRecState]
    refine ⟨heq, ?_⟩
    rw [heq, List.pairwise_map]
    exact (List.pairwise_lt_range n).imp (fun h => by omega)

/-- Witness for C6 amended at concrete inputs: the reset on a start
event, the increment on an end event at the initial state, and the five
strictly increasing delays produced by five consecutive unsolicited
ends. -/
theorem C6_amended_witness :
    (onstart initialRecState).autoRestartCount = 0 ∧
    (onend anchorCfg initialRecState).autoRestartCount
      = initialRecState.autoRestartCount + 1 ∧
    (run anchorCfg initialRecState (List.replicate 5 RecEvent.ended)).1.scheduledDelays
      = (List.range 5).map (fun k => 1000 + k * 500) ∧
    List.Pairwise (fun a b => a < b)
      ((run anchorCfg initialRecState (List.replicate 5 RecEvent.ended)).1.scheduledDelays) := by
  have h := C6_amended anchorCfg rfl rfl rfl
  exact ⟨h.1 initialRecState, h.2.2.1 initialRecState (by decide),
    (h.2.2.2.2 5 (by norm_num)).1, (h.2.2.2.2 5 (by norm_num)).2⟩

end Stake
